import Mathlib

/-!
Verification of the usage aggregation / cost-reconciliation engine of the
AI_API_Usage_CLI repository.

The Python sources are shallowly embedded:
* dicts whose shape the code sniffs with isinstance checks become inductive
  types with an explicit constructor for each shape the code distinguishes;
* optional dict keys become Option fields (a missing key is none);
* Python numbers (int/float) become exact rationals;
* the remote Notion store becomes an explicit list of pages, and the outcome
  of each remote call is an explicit oracle parameter;
* a raised-and-unhandled Python exception becomes an Except error value.
-/

/-- A Python value the code expects to be a dict: either an actual dict
(carrying its parsed fields) or any other value, which the loops skip with
an isinstance check. -/
inductive Dictish (α : Type) where
  | notDict
  | isDict (val : α)
  deriving DecidableEq, Repr

/-- A Python value obtained with dict.get for a key that must be a list:
the keys can be absent, hold a non-list value, or hold a list. -/
inductive PyListField (α : Type) where
  | absent
  | notList
  | list (xs : List α)
  deriving DecidableEq, Repr

/-- List the code iterates over after the `get(key, [])` default and the
isinstance(list) guard: absent and non-list both behave as the empty list. -/
def PyListField.toList {α : Type} : PyListField α → List α
  | .absent => []
  | .notList => []
  | .list xs => xs

/-- Truthiness of a possibly-missing Python string: None and the empty
string are falsy (the code tests them with bare `if value:`). -/
def truthyStr : Option String → Bool
  | none => false
  | some s => s != ""

/-- The value of an "auth_method" key: the code distinguishes a str, a dict
(from which it reads an optional "key_alias"), and everything else. A Python
None value or an empty dict is a falsy non-str non-dict / falsy dict. -/
inductive AuthVal where
  | strv (s : String)
  | dictv (isEmpty : Bool) (key_alias : Option String)
  | otherTruthy
  | otherFalsy
  deriving DecidableEq, Repr

/-- Python truthiness of an auth_method value. -/
def AuthVal.truthy : AuthVal → Bool
  | .strv s => s != ""
  | .dictv isEmpty _ => !isEmpty
  | .otherTruthy => true
  | .otherFalsy => false

/-- Key-alias extraction: a str is used as-is, a dict yields its
"key_alias" defaulting to "Unknown", anything else yields "Unknown". -/
def AuthVal.keyAlias : AuthVal → String
  | .strv s => s
  | .dictv _ ka => ka.getD "Unknown"
  | .otherTruthy => "Unknown"
  | .otherFalsy => "Unknown"

/-- A raw usage entry, as found in time_series[].results[] and in the
summary list. Option fields are dict keys that may be absent. -/
structure RawItem where
  endpoint_id : Option String
  quantity : Option ℚ
  units : Option ℚ
  requests : Option ℚ
  count : Option ℚ
  cost : Option ℚ
  unit_price : Option ℚ
  auth_method : Option AuthVal
  deriving DecidableEq, Repr

/-- A RawItem with every key absent, used as a base for record literals. -/
def RawItem.empty : RawItem := ⟨none, none, none, none, none, none, none, none⟩

/-- The value of a "bucket" key: the code only uses it when it is a str. -/
inductive BucketVal where
  | strv (s : String)
  | notStr
  deriving DecidableEq, Repr

/-- One element of the top-level time_series list (when it is a dict). -/
structure BucketEntry where
  bucket : Option BucketVal
  results : PyListField (Dictish RawItem)
  deriving DecidableEq, Repr

/-- The top-level "summary" value after parse_usage_data coerced non-dict
non-list values to an empty dict: only an actual list is ever iterated. -/
inductive SummaryField where
  | nonList
  | list (xs : List (Dictish RawItem))
  deriving DecidableEq, Repr

/-- A metadata timestamp as seen through `meta.get` plus
datetime.fromisoformat: absent key, falsy empty string, a truthy value that
fails to parse (ValueError / AttributeError), or a parsed instant measured
in seconds. -/
inductive MetaTime where
  | absent
  | emptyStr
  | unparseable
  | parsed (t : ℚ)
  deriving DecidableEq, Repr

/-- The "_meta" object of a usage response (the fields the code reads). -/
structure RawMeta where
  timeframe : Option String
  start : MetaTime
  end_ : MetaTime
  deriving DecidableEq, Repr

/-- A RawMeta with nothing set. -/
def RawMeta.empty : RawMeta := ⟨none, .absent, .absent⟩

/-- A raw usage-API response dict (the keys the code reads). -/
structure RawUsage where
  meta : RawMeta
  time_series : PyListField (Dictish BucketEntry)
  summary : SummaryField
  deriving DecidableEq, Repr

/-- Per-model aggregate: requests, quantity, cost plus the unit_price
recorded when the model entry is first created. -/
structure ModelStat where
  requests : ℚ
  quantity : ℚ
  cost : ℚ
  unit_price : ℚ
  deriving DecidableEq, Repr

/-- Aggregate for the total and for each auth-method alias. -/
structure GroupStat where
  requests : ℚ
  quantity : ℚ
  cost : ℚ
  deriving DecidableEq, Repr

/-- Result of parse_usage_data (usage_tracker.py lines 9-67): the meta,
the raw summary, the time_series coerced to a list, and the auth-method
table prepopulated with zero rows from the summary list. -/
structure ParsedUsage where
  meta : RawMeta
  summary : SummaryField
  time_series : List (Dictish BucketEntry)
  auth_methods : List (String × GroupStat)
  deriving DecidableEq, Repr

/-- Insert a zero row for alias k unless it is already present (the
`if key_alias not in auth_methods` initialisation). Python dicts keep
insertion order, so a new key goes to the end. -/
def authInit (m : List (String × GroupStat)) (k : String) : List (String × GroupStat) :=
  if (m.lookup k).isSome then m else m ++ [(k, ⟨0, 0, 0⟩)]

/-- Embedding of parse_usage_data (usage_tracker.py lines 9-67; the copy in
formatter.py lines 27-85 is textually identical). -/
def parse_usage_data (u : RawUsage) : ParsedUsage :=
  let auth_methods := match u.summary with
    | .nonList => []
    | .list xs => xs.foldl (fun m it =>
        match it with
        | .notDict => m
        | .isDict r =>
          match r.auth_method with
          | none => m
          | some v => authInit m v.keyAlias) []
  ⟨u.meta, u.summary, u.time_series.toList, auth_methods⟩

/-- Mutable aggregation state of calculate_costs: model_stats,
auth_methods and the three running totals. -/
structure CalcState where
  model_stats : List (String × ModelStat)
  auth_methods : List (String × GroupStat)
  total : GroupStat
  deriving DecidableEq, Repr

/-- Output of calculate_costs (usage_tracker.py lines 237-246). -/
structure CalcResult where
  total : GroupStat
  by_model : List (String × ModelStat)
  by_auth_method : List (String × GroupStat)
  meta : RawMeta
  deriving DecidableEq, Repr

/-- Ensure a model row exists (created with zeros and the current
unit_price) and add the deltas to it — the `if endpoint_id not in
model_stats` initialisation followed by the three `+=` lines. -/
def bumpModel (m : List (String × ModelStat)) (eid : String) (up dr dq dc : ℚ) :
    List (String × ModelStat) :=
  match m with
  | [] => [(eid, ⟨dr, dq, dc, up⟩)]
  | (k, s) :: rest =>
    if k == eid then
      (k, ⟨s.requests + dr, s.quantity + dq, s.cost + dc, s.unit_price⟩) :: rest
    else
      (k, s) :: bumpModel rest eid up dr dq dc

/-- Ensure an auth-method row exists (created with zeros) and add the
deltas to it. -/
def bumpGroup (m : List (String × GroupStat)) (k : String) (dr dq dc : ℚ) :
    List (String × GroupStat) :=
  match m with
  | [] => [(k, ⟨dr, dq, dc⟩)]
  | (k0, s) :: rest =>
    if k0 == k then
      (k0, ⟨s.requests + dr, s.quantity + dq, s.cost + dc⟩) :: rest
    else
      (k0, s) :: bumpGroup rest k dr dq dc

/-- Add the per-entry auth-method contribution when the entry carries a
truthy auth_method (`if auth_method:` followed by alias extraction). -/
def bumpAuthOfItem (m : List (String × GroupStat)) (am : Option AuthVal) (dr dq dc : ℚ) :
    List (String × GroupStat) :=
  match am with
  | none => m
  | some v => if v.truthy then bumpGroup m v.keyAlias dr dq dc else m

/-- Add deltas to a GroupStat. -/
def GroupStat.add (g : GroupStat) (dr dq dc : ℚ) : GroupStat :=
  ⟨g.requests + dr, g.quantity + dq, g.cost + dc⟩

namespace UsageTracker

/-- Processing of one element of a results array by calculate_costs
(usage_tracker.py lines 125-176): skip non-dicts and falsy endpoint_ids,
default quantity to 0 and unit_price to 0.0, resolve cost as the explicit
"cost" value when the key is present and quantity * unit_price (0 when
unit_price is falsy) when it is absent, default requests to quantity, then
accumulate into the model, auth-method and total aggregates. -/
def tsStep (st : CalcState) (item : Dictish RawItem) : CalcState :=
  match item with
  | .notDict => st
  | .isDict r =>
    if truthyStr r.endpoint_id then
      let eid := r.endpoint_id.getD ""
      let quantity := r.quantity.getD 0
      let unit_price := r.unit_price.getD 0
      let cost := match r.cost with
        | some c => c
        | none => if unit_price != 0 then quantity * unit_price else 0
      let requests := r.requests.getD quantity
      { model_stats := bumpModel st.model_stats eid unit_price requests quantity cost
        auth_methods := bumpAuthOfItem st.auth_methods r.auth_method requests quantity cost
        total := st.total.add requests quantity cost }
    else st

/-- Processing of one time_series element (usage_tracker.py lines
116-123): skip non-dicts, read "results" with a [] default, skip non-list
results, and fold tsStep over the list. -/
def bucketStep (st : CalcState) (be : Dictish BucketEntry) : CalcState :=
  match be with
  | .notDict => st
  | .isDict b =>
    match b.results with
    | .absent => st
    | .notList => st
    | .list rs => rs.foldl tsStep st

/-- Processing of one summary-list element by calculate_costs
(usage_tracker.py lines 180-235): quantity defaults through "units" to 0,
cost defaults to 0.0, requests defaults through "count" to quantity,
unit_price defaults to 0.0; when the defaulted cost equals 0.0 it is
recomputed as quantity * unit_price (0 when unit_price is falsy); then
the three aggregates accumulate. -/
def summaryStep (st : CalcState) (item : Dictish RawItem) : CalcState :=
  match item with
  | .notDict => st
  | .isDict r =>
    if truthyStr r.endpoint_id then
      let eid := r.endpoint_id.getD ""
      let quantity := r.quantity.getD (r.units.getD 0)
      let cost0 := r.cost.getD 0
      let requests := r.requests.getD (r.count.getD quantity)
      let unit_price := r.unit_price.getD 0
      let cost := if cost0 == 0 then (if unit_price != 0 then quantity * unit_price else 0)
        else cost0
      { model_stats := bumpModel st.model_stats eid unit_price requests quantity cost
        auth_methods := bumpAuthOfItem st.auth_methods r.auth_method requests quantity cost
        total := st.total.add requests quantity cost }
    else st

/-- The aggregation state calculate_costs ends with (usage_tracker.py
lines 105-235): start from zero totals and the prepopulated auth table,
fold the time_series buckets, then fold the summary list when it is a
list. -/
def calcFinalState (u : RawUsage) : CalcState :=
  match (parse_usage_data u).summary with
  | .nonList =>
    (parse_usage_data u).time_series.foldl bucketStep
      ⟨[], (parse_usage_data u).auth_methods, ⟨0, 0, 0⟩⟩
  | .list xs =>
    xs.foldl summaryStep
      ((parse_usage_data u).time_series.foldl bucketStep
        ⟨[], (parse_usage_data u).auth_methods, ⟨0, 0, 0⟩⟩)

/-- Embedding of calculate_costs (usage_tracker.py lines 96-246). -/
def calculate_costs (u : RawUsage) : CalcResult :=
  ⟨(calcFinalState u).total, (calcFinalState u).model_stats, (calcFinalState u).auth_methods,
    (parse_usage_data u).meta⟩

end UsageTracker

/-- Lookup with default in the pricing map (Python dict.get(key, d)). -/
def pmGet (pm : List (String × ℚ)) (k : String) (d : ℚ) : ℚ :=
  (pm.lookup k).getD d

namespace Formatter

/-- Unit-price resolution of the time_series branch of
formatter.calculate_costs (formatter.py line 153):
`result.get("unit_price") or pricing_map.get(endpoint_id, 0.0)` — an
absent or falsy (zero) entry value falls through to the pricing map. -/
def resolveUnitPriceTS (pm : List (String × ℚ)) (r : RawItem) : ℚ :=
  match r.unit_price with
  | some v => if v != 0 then v else pmGet pm (r.endpoint_id.getD "") 0
  | none => pmGet pm (r.endpoint_id.getD "") 0

/-- Processing of one results element by formatter.calculate_costs
(formatter.py lines 144-195): like the usage_tracker version but the
unit price falls back to the pricing map and the absent-cost default is
quantity * unit_price with no falsiness guard on unit_price. -/
def tsStep (pm : List (String × ℚ)) (st : CalcState) (item : Dictish RawItem) : CalcState :=
  match item with
  | .notDict => st
  | .isDict r =>
    if truthyStr r.endpoint_id then
      let eid := r.endpoint_id.getD ""
      let quantity := r.quantity.getD 0
      let unit_price := resolveUnitPriceTS pm r
      let cost := r.cost.getD (quantity * unit_price)
      let requests := r.requests.getD quantity
      { model_stats := bumpModel st.model_stats eid unit_price requests quantity cost
        auth_methods := bumpAuthOfItem st.auth_methods r.auth_method requests quantity cost
        total := st.total.add requests quantity cost }
    else st

/-- Processing of one time_series element (formatter.py lines 135-142). -/
def bucketStep (pm : List (String × ℚ)) (st : CalcState) (be : Dictish BucketEntry) : CalcState :=
  match be with
  | .notDict => st
  | .isDict b =>
    match b.results with
    | .absent => st
    | .notList => st
    | .list rs => rs.foldl (tsStep pm) st

/-- Unit-price resolution of the summary branch of
formatter.calculate_costs (formatter.py lines 217 and 222):
`pricing_map.get(endpoint_id, item.get("unit_price", 0.0))`. -/
def resolveUnitPriceSummary (pm : List (String × ℚ)) (r : RawItem) : ℚ :=
  pmGet pm (r.endpoint_id.getD "") (r.unit_price.getD 0)

/-- Processing of one summary-list element by formatter.calculate_costs
(formatter.py lines 199-252): when the defaulted cost equals 0.0 it is
recomputed as quantity * unit_price with the map-first unit price and no
falsiness guard. -/
def summaryStep (pm : List (String × ℚ)) (st : CalcState) (item : Dictish RawItem) : CalcState :=
  match item with
  | .notDict => st
  | .isDict r =>
    if truthyStr r.endpoint_id then
      let eid := r.endpoint_id.getD ""
      let quantity := r.quantity.getD (r.units.getD 0)
      let cost0 := r.cost.getD 0
      let requests := r.requests.getD (r.count.getD quantity)
      let cost := if cost0 == 0 then quantity * resolveUnitPriceSummary pm r else cost0
      { model_stats := bumpModel st.model_stats eid (resolveUnitPriceSummary pm r)
          requests quantity cost
        auth_methods := bumpAuthOfItem st.auth_methods r.auth_method requests quantity cost
        total := st.total.add requests quantity cost }
    else st

/-- The aggregation state formatter.calculate_costs ends with
(formatter.py lines 124-252). -/
def calcFinalState (u : RawUsage) (pm : List (String × ℚ)) : CalcState :=
  match (parse_usage_data u).summary with
  | .nonList =>
    (parse_usage_data u).time_series.foldl (bucketStep pm)
      ⟨[], (parse_usage_data u).auth_methods, ⟨0, 0, 0⟩⟩
  | .list xs =>
    xs.foldl (summaryStep pm)
      ((parse_usage_data u).time_series.foldl (bucketStep pm)
        ⟨[], (parse_usage_data u).auth_methods, ⟨0, 0, 0⟩⟩)

/-- Embedding of formatter.calculate_costs (formatter.py lines 114-263). -/
def calculate_costs (u : RawUsage) (pm : List (String × ℚ)) : CalcResult :=
  ⟨(calcFinalState u pm).total, (calcFinalState u pm).model_stats,
    (calcFinalState u pm).auth_methods, (parse_usage_data u).meta⟩

end Formatter

/-- Split a character list at every occurrence of c (the accumulator holds
the current piece reversed), the char-level core of Python str.split. -/
def splitCharAux (c : Char) : List Char → List Char → List (List Char)
  | [], acc => [acc.reverse]
  | x :: xs, acc =>
    if x == c then acc.reverse :: splitCharAux c xs [] else splitCharAux c xs (x :: acc)

/-- Python str.split(sep) for a one-character separator. -/
def pySplit (s : String) (c : Char) : List String :=
  (splitCharAux c s.data []).map String.mk

/-- Python `sep in s` for a one-character separator. -/
def pyContains (s : String) (c : Char) : Bool :=
  s.data.contains c

/-- Python str.split(sep)[0]: the part before the first occurrence of sep
(the whole string when sep does not occur). -/
def pySplitFirst (s : String) (c : Char) : String :=
  (pySplit s c).headD s

/-- Python str.split(sep)[1]: the part between the first and the second
occurrence of sep (used only when sep occurs at least once). -/
def pySplitSecond (s : String) (c : Char) : String :=
  ((pySplit s c).drop 1).headD ""

/-- Interleave the separator character back between pieces. -/
def joinChar (c : Char) : List String → String
  | [] => ""
  | [l] => l
  | l :: ls => l ++ String.mk [c] ++ joinChar c ls

/-- The part before the last occurrence of sep, Python
str.rsplit(sep, 1)[0] (used only when sep occurs). -/
def pyRsplitBefore (s : String) (c : Char) : String :=
  joinChar c ((pySplit s c).dropLast)

/-- The part after the last occurrence of sep, Python
str.rsplit(sep, 1)[1] (used only when sep occurs). -/
def pyRsplitAfter (s : String) (c : Char) : String :=
  (pySplit s c).getLastD ""

namespace UsageTracker

/-- Granularity inference from the query span, the try-block of
format_for_notion (usage_tracker.py lines 270-297): both start and end
must be truthy and parseable; a span of at most 2 hours gives "minute",
at most 2 days gives "hour", anything else (including any failure to
obtain two parsed instants) gives "day". -/
def inferFromSpan (meta : RawMeta) : String :=
  match meta.start, meta.end_ with
  | .parsed s, .parsed e =>
    if e - s ≤ 7200 then "minute"
    else if e - s ≤ 172800 then "hour"
    else "day"
  | .parsed _, _ => "day"
  | .absent, _ => "day"
  | .emptyStr, _ => "day"
  | .unparseable, _ => "day"

/-- The timeframe format_for_notion ends up using (usage_tracker.py lines
266-297): the explicit meta value when truthy, otherwise the inferred
one. -/
def effectiveTimeframe (meta : RawMeta) : String :=
  match meta.timeframe with
  | some tf => if tf != "" then tf else inferFromSpan meta
  | none => inferFromSpan meta

/-- Timezone-offset stripping of a bucket's time-of-day part
(usage_tracker.py lines 317-330): cut at "+" when present; otherwise, when
"-" is present, cut at the last "-" provided the trailing token contains a
":" (an offset such as "05:00"), else fall back to cutting at "Z";
otherwise cut at "Z" when present. -/
def stripTimeOffset (time_part : String) : String :=
  if pyContains time_part '+' then
    pySplitFirst time_part '+'
  else if pyContains time_part '-' then
    (if pyContains (pyRsplitAfter time_part '-') ':' then pyRsplitBefore time_part '-'
     else (if pyContains time_part 'Z' then pySplitFirst time_part 'Z' else time_part))
  else
    (if pyContains time_part 'Z' then pySplitFirst time_part 'Z' else time_part)

/-- The date part of a bucket string (usage_tracker.py lines 312-334):
the part before "T" when the string contains one, else the whole string. -/
def bucketDate (bucket : String) : String :=
  if pyContains bucket 'T' then pySplitFirst bucket 'T' else bucket

/-- The time_str variable computed from a bucket string (usage_tracker.py
lines 312-335): the offset-stripped part after "T" when the string
contains a "T" and the granularity includes time, else Python None. -/
def bucketTimeStr (include_time : Bool) (bucket : String) : Option String :=
  if pyContains bucket 'T' then
    (if include_time then some (stripTimeOffset (pySplitSecond bucket 'T')) else none)
  else none

/-- A record of the Notion-ready mapping (usage_tracker.py lines
373-385); time is the key that is present only when time_str is truthy. -/
structure NotionRecord where
  date : String
  model : String
  requests : ℚ
  quantity : ℚ
  cost : ℚ
  unit_price : ℚ
  auth_method : String
  time : Option String
  deriving DecidableEq, Repr

/-- Alias grouping key of a results entry (usage_tracker.py lines
357-367): the extracted alias when auth_method is truthy, else
"Unknown". -/
def aliasOfItem (r : RawItem) : String :=
  match r.auth_method with
  | some v => if v.truthy then v.keyAlias else "Unknown"
  | none => "Unknown"

/-- The record format_for_notion builds for one results entry
(usage_tracker.py lines 344-385). -/
def resultRecord (date : String) (time_str : Option String) (r : RawItem) : NotionRecord :=
  let quantity := r.quantity.getD 0
  let unit_price := r.unit_price.getD 0
  let cost := r.cost.getD (quantity * unit_price)
  let requests := r.requests.getD quantity
  ⟨date, r.endpoint_id.getD "", requests, quantity, cost, unit_price, aliasOfItem r,
    if truthyStr time_str then time_str else none⟩

/-- The bucket string format_for_notion extracts from a time_series
element: the value of "bucket" defaulted to "" when it is a str, none when
the element is not a dict or the bucket is not a str (both are skipped). -/
def bucketStrOf (be : Dictish BucketEntry) : Option String :=
  match be with
  | .notDict => none
  | .isDict b =>
    match b.bucket.getD (.strv "") with
    | .strv s => some s
    | .notStr => none

/-- All (alias, record) pairs format_for_notion produces from one
time_series element (usage_tracker.py lines 305-387): skip non-dict
elements and non-str buckets, split the bucket into date and time_str,
then build one record per dict results entry with a truthy endpoint_id. -/
def bucketRecords (include_time : Bool) (be : Dictish BucketEntry) :
    List (String × NotionRecord) :=
  match bucketStrOf be with
  | none => []
  | some bucket =>
    match be with
    | .notDict => []
    | .isDict b =>
      match b.results with
      | .absent => []
      | .notList => []
      | .list rs => rs.filterMap (fun it =>
          match it with
          | .notDict => none
          | .isDict r =>
            if truthyStr r.endpoint_id then
              some (aliasOfItem r,
                resultRecord (bucketDate bucket) (bucketTimeStr include_time bucket) r)
            else none)

/-- Append a record to its alias group, creating the group at the end of
the dict when the alias is new (usage_tracker.py lines 369-387). -/
def addToGroup (m : List (String × List NotionRecord)) (k : String) (v : NotionRecord) :
    List (String × List NotionRecord) :=
  match m with
  | [] => [(k, [v])]
  | (k0, vs) :: rest =>
    if k0 == k then (k0, vs ++ [v]) :: rest
    else (k0, vs) :: addToGroup rest k v

/-- Embedding of format_for_notion (usage_tracker.py lines 249-389):
determine the effective timeframe, let include_time hold exactly for
"minute" and "hour", generate the per-entry records bucket by bucket and
group them by auth-method alias in encounter order. -/
def format_for_notion (u : RawUsage) : List (String × List NotionRecord) :=
  let parsed := parse_usage_data u
  let timeframe := effectiveTimeframe parsed.meta
  let include_time := timeframe == "minute" || timeframe == "hour"
  (parsed.time_series.flatMap (bucketRecords include_time)).foldl
    (fun acc kv => addToGroup acc kv.1 kv.2) []

end UsageTracker

namespace NotionIntegration

/-- A stored Notion page of the usage database, with the properties
create_page writes (notion_integration.py lines 350-403): Date, Model
(title), Key Name (select, only when an api_key was given), the four
numbers, and Time (rich_text, only when a truthy time was given). -/
structure Page where
  id : Nat
  date : String
  model : String
  keyName : Option String
  requests : ℚ
  quantity : ℚ
  cost : ℚ
  unit_price : ℚ
  time : Option String
  deriving DecidableEq, Repr

/-- An input record of save_usage_data (one element of the records list),
read with dict.get: date/model/time/auth_method may be missing, the four
numbers default to 0. -/
structure InRecord where
  date : Option String
  model : Option String
  time : Option String
  auth_method : Option String
  requests : ℚ
  quantity : ℚ
  cost : ℚ
  unit_price : ℚ
  deriving DecidableEq, Repr

/-- The Python value find_existing_page returns: every normal path yields
a (page_id, needs_time_update) tuple, but the non-200 branch
(notion_integration.py line 169) returns a bare None. -/
inductive FindResult where
  | bareNone
  | pair (page_id : Option Nat) (needs_time_update : Bool)
  deriving DecidableEq, Repr

/-- Whether the candidate-scanning loop of find_existing_page
(notion_integration.py lines 182-293) stops at page p: the Model must
match; when a truthy auth_method was passed the Key Name must equal it
(line 228); when a cost was passed the stored Cost must be within 0.0001
of it (line 249); and the Time comparison must not fall into its
continue branch — it passes when no truthy time was given (line 286),
when the stored Time equals the given one (line 271), or when the stored
Time is falsy (line 276). -/
def scanHit (model : String) (time auth_method : Option String) (cost : Option ℚ)
    (p : Page) : Bool :=
  p.model == model
  && (!(truthyStr auth_method) || p.keyName == some (auth_method.getD ""))
  && (match cost with
      | some c => abs (p.cost - c) ≤ 1 / 10000
      | none => true)
  && (!(truthyStr time) || p.time == some (time.getD "") || !(truthyStr p.time))

/-- The needs_time_update flag returned when the scan stops at page p:
true exactly when a truthy time was given and the stored Time is not
equal to it (the stop cases of lines 271-281: equal Time gives false,
falsy stored Time gives true; with no truthy time line 290 gives
false). -/
def hitNeedsTime (time : Option String) (p : Page) : Bool :=
  truthyStr time && !(p.time == some (time.getD ""))

/-- The candidate-scanning loop of find_existing_page: return the first
page at which the comparisons stop, with its needs_time_update flag;
(None, False) when the loop exhausts the candidates. -/
def scanPages (model : String) (time auth_method : Option String) (cost : Option ℚ) :
    List Page → Option Nat × Bool
  | [] => (none, false)
  | p :: rest =>
    if scanHit model time auth_method cost p then (some p.id, hitNeedsTime time p)
    else scanPages model time auth_method cost rest

/-- Embedding of find_existing_page (notion_integration.py lines
110-303). queryOk is the outcome of the remote date-equality query: when
the status is not 200 the function returns the bare None of line 169;
otherwise it scans the pages whose Date equals the given date, in store
order. -/
def find_existing_page (queryOk : Bool) (store : List Page) (date model : String)
    (time auth_method : Option String) (cost : Option ℚ) : FindResult :=
  if queryOk then
    let rp := scanPages model time auth_method cost (store.filter (fun p => p.date == date))
    .pair rp.1 rp.2
  else .bareNone

/-- Embedding of create_page's stored result (notion_integration.py lines
305-433) for a record with a well-formed YYYY-MM-DD date (on which the
strptime/strftime round trip is the identity): Key Name is stored only
for a truthy api_key, Time only for a truthy time. -/
def mkPage (id : Nat) (date model : String) (requests quantity cost unit_price : ℚ)
    (api_key time : Option String) : Page :=
  ⟨id, date, model, (if truthyStr api_key then api_key else none),
    requests, quantity, cost, unit_price, (if truthyStr time then time else none)⟩

/-- Embedding of a successful update_page call (notion_integration.py
lines 467-536) applied to the store: with time_only and a truthy time
only the Time property is written; otherwise the four numbers are
written, plus Time when a truthy time was given. -/
def applyUpdate (store : List Page) (page_id : Nat)
    (requests quantity cost unit_price : ℚ) (time : Option String) (time_only : Bool) :
    List Page :=
  store.map (fun p =>
    if p.id == page_id then
      (if time_only && truthyStr time then { p with time := time }
       else { p with requests := requests, quantity := quantity, cost := cost,
                     unit_price := unit_price,
                     time := if truthyStr time then time else p.time })
    else p)

/-- Outcomes of the remote calls made while processing one record: the
duplicate-check query, the create, and the update. -/
structure RecOracle where
  queryOk : Bool
  createOk : Bool
  updateOk : Bool
  deriving DecidableEq, Repr

/-- All remote calls succeed. -/
def RecOracle.allOk : RecOracle := ⟨true, true, true⟩

/-- The uncaught Python exception raised when save_usage_data unpacks the
bare None that find_existing_page returns on a failed query
(notion_integration.py line 596): TypeError, cannot unpack non-iterable
NoneType. -/
inductive PyExn where
  | typeErrNoneUnpack
  deriving DecidableEq, Repr

/-- Counters returned by save_usage_data. -/
structure SaveStats where
  created : Nat
  updated : Nat
  skipped : Nat
  deriving DecidableEq, Repr

/-- The record loop of save_usage_data (notion_integration.py lines
571-655), one oracle entry per record (missing entries default to all
remote calls succeeding). A record without a truthy date or model is
skipped; otherwise the duplicate check runs, and an existing page leads
to a time-only update (when needs_time_update and a truthy time), a full
update (when update_existing), or a skip; no existing page leads to a
create; every failed write counts as skipped. Unpacking the bare None of
a failed query raises and aborts the whole loop. -/
def saveGo (update_existing : Bool) (oracle : List RecOracle) (records : List InRecord)
    (store : List Page) (stats : SaveStats) : Except PyExn (SaveStats × List Page) :=
  match records with
  | [] => .ok (stats, store)
  | r :: rest =>
    let o := oracle.headD RecOracle.allOk
    if !(truthyStr r.date) || !(truthyStr r.model) then
      saveGo update_existing oracle.tail rest store
        { stats with skipped := stats.skipped + 1 }
    else
      let date := r.date.getD ""
      let model := r.model.getD ""
      match find_existing_page o.queryOk store date model r.time r.auth_method (some r.cost) with
      | .bareNone => .error .typeErrNoneUnpack
      | .pair (some pid) needs_time =>
        if needs_time && truthyStr r.time then
          (if o.updateOk then
            saveGo update_existing oracle.tail rest
              (applyUpdate store pid r.requests r.quantity r.cost r.unit_price r.time true)
              { stats with updated := stats.updated + 1 }
          else
            saveGo update_existing oracle.tail rest store
              { stats with skipped := stats.skipped + 1 })
        else if update_existing then
          (if o.updateOk then
            saveGo update_existing oracle.tail rest
              (applyUpdate store pid r.requests r.quantity r.cost r.unit_price r.time false)
              { stats with updated := stats.updated + 1 }
          else
            saveGo update_existing oracle.tail rest store
              { stats with skipped := stats.skipped + 1 })
        else
          saveGo update_existing oracle.tail rest store
            { stats with skipped := stats.skipped + 1 }
      | .pair none _ =>
        if o.createOk then
          saveGo update_existing oracle.tail rest
            (store ++ [mkPage store.length date model r.requests r.quantity r.cost
              r.unit_price r.auth_method r.time])
            { stats with created := stats.created + 1 }
        else
          saveGo update_existing oracle.tail rest store
            { stats with skipped := stats.skipped + 1 }

/-- Embedding of save_usage_data (notion_integration.py lines 541-657):
run the record loop from zero counters against the given store. -/
def save_usage_data (update_existing : Bool) (oracle : List RecOracle)
    (records : List InRecord) (store : List Page) : Except PyExn (SaveStats × List Page) :=
  saveGo update_existing oracle records store ⟨0, 0, 0⟩

/-- The page a record would be stored as (fresh id i). -/
def recPageAt (i : Nat) (r : InRecord) : Page :=
  mkPage i (r.date.getD "") (r.model.getD "") r.requests r.quantity r.cost r.unit_price
    r.auth_method r.time

/-- Whether the duplicate scan for a probing record would stop at page p
(Date filter plus the in-loop comparisons). -/
def pageHit (r : InRecord) (p : Page) : Bool :=
  p.date == r.date.getD ""
  && scanHit (r.model.getD "") r.time r.auth_method (some r.cost) p

/-- Whether the duplicate scan for record probe would stop at the page
stored for record prev (the page id is irrelevant to the scan). -/
def recHit (probe prev : InRecord) : Bool :=
  pageHit probe (recPageAt 0 prev)

/-- No later record's duplicate scan stops at an earlier record's page. -/
def pairwiseNoHit : List InRecord → Bool
  | [] => true
  | r :: rest => rest.all (fun later => !(recHit later r)) && pairwiseNoHit rest

/-- The pages a list of records creates, with fresh ids from i. -/
def recPages (i : Nat) : List InRecord → List Page
  | [] => []
  | r :: rest => recPageAt i r :: recPages (i + 1) rest

end NotionIntegration

namespace InvoiceGmail

/-- A validated invoice record, as returned by _validate_invoice
(invoice_gmail_client.py lines 338-347). The merge loop reads it with
invoice.get("invoice_id"), hence the Option. -/
structure Invoice where
  invoice_id : Option String
  date : String
  amount : ℚ
  description : String
  period : String
  service : String
  email_subject : String
  paid_status : String
  deriving DecidableEq, Repr

/-- The per-pass body of the dedup loop of fetch_invoices
(invoice_gmail_client.py lines 87-93): keep each invoice whose
invoice_id has not been seen, recording the id; drop the rest. Returns
the kept invoices of this pass and the grown seen set. -/
def dedupPass (seen : List (Option String)) :
    List Invoice → List Invoice × List (Option String)
  | [] => ([], seen)
  | inv :: rest =>
    if seen.contains inv.invoice_id then dedupPass seen rest
    else
      let r := dedupPass (inv.invoice_id :: seen) rest
      (inv :: r.1, r.2)

/-- The keyword loop of fetch_invoices (invoice_gmail_client.py lines
69-103): a pass that raised is logged and skipped (the continue of line
103); a successful pass contributes its deduplicated invoices, with the
seen-id set shared across passes. -/
def mergeGo (seen : List (Option String)) :
    List (Except Unit (List Invoice)) → List Invoice
  | [] => []
  | .error _ :: rest => mergeGo seen rest
  | .ok invs :: rest =>
    let d := dedupPass seen invs
    d.1 ++ mergeGo d.2 rest

/-- Embedding of the merge performed by fetch_invoices over the
per-keyword extraction passes (invoice_gmail_client.py lines 66-110),
starting from an empty seen set. -/
def fetch_invoices_merge (passes : List (Except Unit (List Invoice))) : List Invoice :=
  mergeGo [] passes

end InvoiceGmail

/-! Claim theorems. -/

/-- C10: for every usage response whose time_series field is absent,
empty, or not a list, format_for_notion returns an empty mapping, whatever
the summary list holds — summary-shaped usage data is never converted into
Notion records. -/
theorem c10_summary_never_converted (u : RawUsage)
    (h : u.time_series = .absent ∨ u.time_series = .notList ∨ u.time_series = .list []) :
    UsageTracker.format_for_notion u = [] := by
  rcases h with h | h | h <;>
    simp [UsageTracker.format_for_notion, parse_usage_data, PyListField.toList, h]

/-- Concrete response with no time_series but a summary entry carrying an
endpoint_id. -/
def c10data : RawUsage :=
  ⟨RawMeta.empty, .absent,
    .list [.isDict { RawItem.empty with endpoint_id := some "m1", quantity := some 100 }]⟩

/-- C10 witness: the summary-only response maps to no Notion records. -/
theorem c10_witness : UsageTracker.format_for_notion c10data = [] :=
  c10_summary_never_converted c10data (Or.inl rfl)

/-- Record with a date and a model, for the failed-query run. -/
def c2record : NotionIntegration.InRecord :=
  ⟨some "2024-01-01", some "m", none, none, 0, 0, 0, 0⟩

/-- C2: when the duplicate-check query for a record returns a non-success
status, save_usage_data does not count the record as skipped and continue —
it aborts the whole batch: find_existing_page returns a bare None (line 169)
and the tuple unpacking at line 596 raises TypeError. -/
theorem c2_failed_query_aborts_batch :
    NotionIntegration.save_usage_data false [⟨false, true, true⟩] [c2record] [] =
      .error NotionIntegration.PyExn.typeErrNoneUnpack := rfl

/-- C6: with no explicit timeframe and two parseable timestamps, the
inferred granularity is "minute" for a span of at most 2 hours, "hour" for
a span over 2 hours and at most 2 days, and "day" beyond, the boundaries
belonging to the smaller bucket. -/
theorem c6_granularity_inference (meta : RawMeta) (s e : ℚ)
    (htf : truthyStr meta.timeframe = false)
    (hs : meta.start = .parsed s) (he : meta.end_ = .parsed e) :
    (e - s ≤ 7200 → UsageTracker.effectiveTimeframe meta = "minute") ∧
    (7200 < e - s → e - s ≤ 172800 → UsageTracker.effectiveTimeframe meta = "hour") ∧
    (172800 < e - s → UsageTracker.effectiveTimeframe meta = "day") := by
  have hinf : UsageTracker.inferFromSpan meta =
      (if e - s ≤ 7200 then "minute" else if e - s ≤ 172800 then "hour" else "day") := by
    unfold UsageTracker.inferFromSpan
    rw [hs, he]
  have heff : UsageTracker.effectiveTimeframe meta = UsageTracker.inferFromSpan meta := by
    unfold UsageTracker.effectiveTimeframe
    cases htf2 : meta.timeframe with
    | none => rfl
    | some tf =>
      have hfalse : (tf != "") = false := by simpa [truthyStr, htf2] using htf
      simp [hfalse]
  refine ⟨?_, ?_, ?_⟩
  · intro h
    rw [heff, hinf, if_pos h]
  · intro h1 h2
    rw [heff, hinf, if_neg (by linarith), if_pos h2]
  · intro h
    rw [heff, hinf, if_neg (by linarith), if_neg (by linarith)]

/-- C6 witness: a span of exactly 2 hours infers "minute" and a span of
exactly 2 days infers "hour". -/
theorem c6_witness :
    UsageTracker.effectiveTimeframe ⟨none, .parsed 0, .parsed 7200⟩ = "minute" ∧
    UsageTracker.effectiveTimeframe ⟨none, .parsed 7200, .parsed 180000⟩ = "hour" :=
  ⟨(c6_granularity_inference ⟨none, .parsed 0, .parsed 7200⟩ 0 7200 rfl rfl rfl).1
      (by norm_num),
   (c6_granularity_inference ⟨none, .parsed 7200, .parsed 180000⟩ 7200 180000 rfl rfl
      rfl).2.1 (by norm_num) (by norm_num)⟩

/-- The cost recorded for model k (0 when the model has no row). -/
def modelCost (m : List (String × ModelStat)) (k : String) : ℚ :=
  ((m.lookup k).map ModelStat.cost).getD 0

/-- The cost recorded for auth-method alias k (0 when it has no row). -/
def groupCost (m : List (String × GroupStat)) (k : String) : ℚ :=
  ((m.lookup k).map GroupStat.cost).getD 0

theorem modelCost_bumpModel (m : List (String × ModelStat)) (eid : String)
    (up dr dq dc : ℚ) :
    modelCost (bumpModel m eid up dr dq dc) eid = modelCost m eid + dc := by
  induction m with
  | nil => simp [bumpModel, modelCost, List.lookup]
  | cons hd tl ih =>
    obtain ⟨k, s⟩ := hd
    by_cases h : k = eid
    · subst h
      simp [bumpModel, modelCost, List.lookup]
    · have hb : (k == eid) = false := by simpa using h
      have hb2 : (eid == k) = false := by simpa using (Ne.symm h)
      simpa [bumpModel, hb, modelCost, List.lookup, hb2] using ih

theorem groupCost_bumpGroup (m : List (String × GroupStat)) (k0 : String) (dr dq dc : ℚ) :
    groupCost (bumpGroup m k0 dr dq dc) k0 = groupCost m k0 + dc := by
  induction m with
  | nil => simp [bumpGroup, groupCost, List.lookup]
  | cons hd tl ih =>
    obtain ⟨k, s⟩ := hd
    by_cases h : k = k0
    · subst h
      simp [bumpGroup, groupCost, List.lookup]
    · have hb : (k == k0) = false := by simpa using h
      have hb2 : (k0 == k) = false := by simpa using (Ne.symm h)
      simpa [bumpGroup, hb, groupCost, List.lookup, hb2] using ih

/-- C4: a usage entry whose cost field is present and non-zero contributes
exactly that cost to the per-model, per-auth-method and total aggregates of
calculate_costs, in both the time_series and the summary shapes — the value
is never recomputed from quantity and unit_price. -/
theorem c4_explicit_cost_used_verbatim (st : CalcState) (r : RawItem) (c : ℚ)
    (hc : r.cost = some c) (hc0 : c ≠ 0) (he : truthyStr r.endpoint_id = true) :
    (((UsageTracker.tsStep st (.isDict r)).total.cost = st.total.cost + c) ∧
     (modelCost (UsageTracker.tsStep st (.isDict r)).model_stats (r.endpoint_id.getD "") =
        modelCost st.model_stats (r.endpoint_id.getD "") + c) ∧
     (∀ v : AuthVal, r.auth_method = some v → v.truthy = true →
        groupCost (UsageTracker.tsStep st (.isDict r)).auth_methods v.keyAlias =
          groupCost st.auth_methods v.keyAlias + c)) ∧
    (((UsageTracker.summaryStep st (.isDict r)).total.cost = st.total.cost + c) ∧
     (modelCost (UsageTracker.summaryStep st (.isDict r)).model_stats (r.endpoint_id.getD "") =
        modelCost st.model_stats (r.endpoint_id.getD "") + c) ∧
     (∀ v : AuthVal, r.auth_method = some v → v.truthy = true →
        groupCost (UsageTracker.summaryStep st (.isDict r)).auth_methods v.keyAlias =
          groupCost st.auth_methods v.keyAlias + c)) := by
  have hbeq : (c == (0 : ℚ)) = false := by simpa using hc0
  refine ⟨⟨?_, ?_, ?_⟩, ⟨?_, ?_, ?_⟩⟩
  · simp [UsageTracker.tsStep, he, hc, GroupStat.add]
  · simp [UsageTracker.tsStep, he, hc, modelCost_bumpModel]
  · intro v hv hvt
    simp [UsageTracker.tsStep, he, hc, bumpAuthOfItem, hv, hvt, groupCost_bumpGroup]
  · simp [UsageTracker.summaryStep, he, hc, hbeq, GroupStat.add]
  · simp [UsageTracker.summaryStep, he, hc, hbeq, modelCost_bumpModel]
  · intro v hv hvt
    simp [UsageTracker.summaryStep, he, hc, hbeq, bumpAuthOfItem, hv, hvt,
      groupCost_bumpGroup]

/-- Concrete entry with an explicit non-zero cost that differs from
quantity times unit_price. -/
def c4item : RawItem :=
  { RawItem.empty with
    endpoint_id := some "m1"
    quantity := some 2
    unit_price := some 100
    cost := some 5
    auth_method := some (.strv "key-a") }

/-- C4 witness: the explicit cost 5 is what reaches the total, not 200. -/
theorem c4_witness :
    (UsageTracker.tsStep ⟨[], [], ⟨0, 0, 0⟩⟩ (.isDict c4item)).total.cost = (0 : ℚ) + 5 :=
  (c4_explicit_cost_used_verbatim ⟨[], [], ⟨0, 0, 0⟩⟩ c4item 5 rfl (by norm_num) rfl).1.1

/-- Sum of the requests column of the by_model table. -/
def sumModelReq (m : List (String × ModelStat)) : ℚ :=
  (m.map (fun kv => kv.2.requests)).sum

/-- Sum of the quantity column of the by_model table. -/
def sumModelQty (m : List (String × ModelStat)) : ℚ :=
  (m.map (fun kv => kv.2.quantity)).sum

/-- Sum of the cost column of the by_model table. -/
def sumModelCost (m : List (String × ModelStat)) : ℚ :=
  (m.map (fun kv => kv.2.cost)).sum

/-- The by_model columns sum to the running totals. -/
def SumsOk (st : CalcState) : Prop :=
  sumModelReq st.model_stats = st.total.requests ∧
  sumModelQty st.model_stats = st.total.quantity ∧
  sumModelCost st.model_stats = st.total.cost

theorem sumModelReq_bumpModel (m : List (String × ModelStat)) (eid : String)
    (up dr dq dc : ℚ) :
    sumModelReq (bumpModel m eid up dr dq dc) = sumModelReq m + dr := by
  induction m with
  | nil => simp [bumpModel, sumModelReq]
  | cons hd tl ih =>
    obtain ⟨k, s⟩ := hd
    by_cases h : k = eid
    · subst h
      simp [bumpModel, sumModelReq]
      ring
    · have hb : (k == eid) = false := by simpa using h
      simp [bumpModel, hb, sumModelReq] at ih ⊢
      rw [ih]
      ring

theorem sumModelQty_bumpModel (m : List (String × ModelStat)) (eid : String)
    (up dr dq dc : ℚ) :
    sumModelQty (bumpModel m eid up dr dq dc) = sumModelQty m + dq := by
  induction m with
  | nil => simp [bumpModel, sumModelQty]
  | cons hd tl ih =>
    obtain ⟨k, s⟩ := hd
    by_cases h : k = eid
    · subst h
      simp [bumpModel, sumModelQty]
      ring
    · have hb : (k == eid) = false := by simpa using h
      simp [bumpModel, hb, sumModelQty] at ih ⊢
      rw [ih]
      ring

theorem sumModelCost_bumpModel (m : List (String × ModelStat)) (eid : String)
    (up dr dq dc : ℚ) :
    sumModelCost (bumpModel m eid up dr dq dc) = sumModelCost m + dc := by
  induction m with
  | nil => simp [bumpModel, sumModelCost]
  | cons hd tl ih =>
    obtain ⟨k, s⟩ := hd
    by_cases h : k = eid
    · subst h
      simp [bumpModel, sumModelCost]
      ring
    · have hb : (k == eid) = false := by simpa using h
      simp [bumpModel, hb, sumModelCost] at ih ⊢
      rw [ih]
      ring

theorem sumsOk_tsStep (st : CalcState) (it : Dictish RawItem) (h : SumsOk st) :
    SumsOk (UsageTracker.tsStep st it) := by
  obtain ⟨hr, hq, hc⟩ := h
  cases it with
  | notDict => exact ⟨hr, hq, hc⟩
  | isDict r =>
    cases ht : truthyStr r.endpoint_id with
    | false => simpa [UsageTracker.tsStep, ht] using ⟨hr, hq, hc⟩
    | true =>
      refine ⟨?_, ?_, ?_⟩ <;>
        simp [UsageTracker.tsStep, ht, GroupStat.add, sumModelReq_bumpModel,
          sumModelQty_bumpModel, sumModelCost_bumpModel, hr, hq, hc]

theorem sumsOk_summaryStep (st : CalcState) (it : Dictish RawItem) (h : SumsOk st) :
    SumsOk (UsageTracker.summaryStep st it) := by
  obtain ⟨hr, hq, hc⟩ := h
  cases it with
  | notDict => exact ⟨hr, hq, hc⟩
  | isDict r =>
    cases ht : truthyStr r.endpoint_id with
    | false => simpa [UsageTracker.summaryStep, ht] using ⟨hr, hq, hc⟩
    | true =>
      refine ⟨?_, ?_, ?_⟩ <;>
        simp [UsageTracker.summaryStep, ht, GroupStat.add, sumModelReq_bumpModel,
          sumModelQty_bumpModel, sumModelCost_bumpModel, hr, hq, hc]

theorem sumsOk_foldl {α : Type} (f : CalcState → α → CalcState)
    (hf : ∀ st a, SumsOk st → SumsOk (f st a)) :
    ∀ (l : List α) (st : CalcState), SumsOk st → SumsOk (l.foldl f st) := by
  intro l
  induction l with
  | nil => intro st h; exact h
  | cons hd tl ih => intro st h; exact ih (f st hd) (hf st hd h)

theorem sumsOk_bucketStep (st : CalcState) (be : Dictish BucketEntry) (h : SumsOk st) :
    SumsOk (UsageTracker.bucketStep st be) := by
  cases be with
  | notDict => exact h
  | isDict b =>
    obtain ⟨bk, res⟩ := b
    cases res with
    | absent => exact h
    | notList => exact h
    | list rs => exact sumsOk_foldl UsageTracker.tsStep sumsOk_tsStep rs st h

theorem calcFinalState_sumsOk (u : RawUsage) : SumsOk (UsageTracker.calcFinalState u) := by
  have h0 : SumsOk ⟨[], (parse_usage_data u).auth_methods, ⟨0, 0, 0⟩⟩ := by
    refine ⟨?_, ?_, ?_⟩ <;> simp [sumModelReq, sumModelQty, sumModelCost]
  have h1 : SumsOk ((parse_usage_data u).time_series.foldl UsageTracker.bucketStep
      ⟨[], (parse_usage_data u).auth_methods, ⟨0, 0, 0⟩⟩) :=
    sumsOk_foldl UsageTracker.bucketStep sumsOk_bucketStep _ _ h0
  unfold UsageTracker.calcFinalState
  split
  · exact h1
  · exact sumsOk_foldl UsageTracker.summaryStep sumsOk_summaryStep _ _ h1

/-- C5: for every usage response, the by_model columns of calculate_costs
sum to the total, within the 1e-6 tolerance, for cost, requests and
quantity alike (in the exact-rational embedding the sums are equal on the
nose). -/
theorem c5_by_model_sums_match_total (u : RawUsage) :
    abs (sumModelCost (UsageTracker.calculate_costs u).by_model -
        (UsageTracker.calculate_costs u).total.cost) ≤ 1 / 1000000 ∧
    abs (sumModelReq (UsageTracker.calculate_costs u).by_model -
        (UsageTracker.calculate_costs u).total.requests) ≤ 1 / 1000000 ∧
    abs (sumModelQty (UsageTracker.calculate_costs u).by_model -
        (UsageTracker.calculate_costs u).total.quantity) ≤ 1 / 1000000 := by
  obtain ⟨hr, hq, hc⟩ := calcFinalState_sumsOk u
  have hbm : (UsageTracker.calculate_costs u).by_model =
      (UsageTracker.calcFinalState u).model_stats := rfl
  have htot : (UsageTracker.calculate_costs u).total =
      (UsageTracker.calcFinalState u).total := rfl
  rw [hbm, htot, hr, hq, hc]
  norm_num

/-- A usage response holding exactly one time_series entry. -/
def tsSingleton (r : RawItem) : RawUsage :=
  ⟨RawMeta.empty,
    .list [.isDict ⟨some (.strv "2024-01-01T00:00:00"), .list [.isDict r]⟩], .nonList⟩

/-- A usage response holding exactly one summary entry. -/
def summarySingleton (r : RawItem) : RawUsage :=
  ⟨RawMeta.empty, .absent, .list [.isDict r]⟩

/-- Entry with a present-but-zero cost and a known unit price. -/
def c3item : RawItem :=
  { RawItem.empty with
    endpoint_id := some "m1"
    quantity := some 100
    unit_price := some (1 / 100)
    cost := some 0 }

/-- C3 counterexample: a time_series entry whose cost field is present
with value 0 and whose unit_price is known (0.01, from the entry) is left
at cost 0 by formatter.calculate_costs, not assigned
quantity × unit_price = 1: the quantity × unit_price default applies only
when the "cost" key is absent (formatter.py line 154, and identically
usage_tracker.py line 135). -/
theorem c3_counterexample :
    (Formatter.calculate_costs (tsSingleton c3item) []).total.cost = 0 ∧
    (c3item.quantity.getD 0) * Formatter.resolveUnitPriceTS [] c3item = 1 ∧
    (0 : ℚ) ≠ 1 := by
  refine ⟨?_, ?_, by norm_num⟩
  · simp [Formatter.calculate_costs, Formatter.calcFinalState, tsSingleton, c3item,
      parse_usage_data, PyListField.toList, Formatter.bucketStep, Formatter.tsStep,
      truthyStr, RawItem.empty, GroupStat.add]
  · simp [c3item, RawItem.empty, Formatter.resolveUnitPriceTS, pmGet]

/-- C3 amended: when the cost field is absent, a time_series entry is
assigned cost = quantity × unit_price exactly, with unit_price the entry's
own value when non-zero and the pricing-map value for its endpoint_id
otherwise; when the cost field is absent or zero, a summary entry is
assigned cost = quantity × unit_price exactly, with unit_price the
pricing-map value when mapped and the entry's value otherwise. (A
time_series entry with a present-but-zero cost keeps cost 0.) -/
theorem c3_cost_fallback_amended (pm : List (String × ℚ)) (r : RawItem)
    (he : truthyStr r.endpoint_id = true) :
    (r.cost = none →
      (Formatter.calculate_costs (tsSingleton r) pm).total.cost =
          (r.quantity.getD 0) * Formatter.resolveUnitPriceTS pm r ∧
      modelCost (Formatter.calculate_costs (tsSingleton r) pm).by_model
          (r.endpoint_id.getD "") =
        (r.quantity.getD 0) * Formatter.resolveUnitPriceTS pm r) ∧
    (r.cost = none ∨ r.cost = some 0 →
      (Formatter.calculate_costs (summarySingleton r) pm).total.cost =
          (r.quantity.getD (r.units.getD 0)) * Formatter.resolveUnitPriceSummary pm r ∧
      modelCost (Formatter.calculate_costs (summarySingleton r) pm).by_model
          (r.endpoint_id.getD "") =
        (r.quantity.getD (r.units.getD 0)) * Formatter.resolveUnitPriceSummary pm r) := by
  constructor
  · intro hc
    constructor
    · simp [Formatter.calculate_costs, Formatter.calcFinalState, tsSingleton,
        parse_usage_data, PyListField.toList, Formatter.bucketStep, Formatter.tsStep,
        he, hc, GroupStat.add]
    · simp [Formatter.calculate_costs, Formatter.calcFinalState, tsSingleton,
        parse_usage_data, PyListField.toList, Formatter.bucketStep, Formatter.tsStep,
        he, hc, GroupStat.add, modelCost, bumpModel, List.lookup]
  · intro hc
    have hc0 : r.cost.getD 0 = 0 := by
      rcases hc with hc | hc <;> simp [hc]
    constructor
    · simp [Formatter.calculate_costs, Formatter.calcFinalState, summarySingleton,
        parse_usage_data, PyListField.toList, Formatter.summaryStep, he, hc0,
        GroupStat.add]
    · simp [Formatter.calculate_costs, Formatter.calcFinalState, summarySingleton,
        parse_usage_data, PyListField.toList, Formatter.summaryStep, he, hc0,
        GroupStat.add, modelCost, bumpModel, List.lookup]

/-- Entry with no cost and no unit_price of its own. -/
def c3wItem : RawItem :=
  { RawItem.empty with
    endpoint_id := some "m1"
    quantity := some 100 }

/-- C3 witness: with the unit price known only from the pricing map, an
absent-cost time_series entry gets quantity × unit_price. -/
theorem c3_witness :
    (Formatter.calculate_costs (tsSingleton c3wItem) [("m1", 1 / 100)]).total.cost =
      (c3wItem.quantity.getD 0) * Formatter.resolveUnitPriceTS [("m1", 1 / 100)] c3wItem :=
  ((c3_cost_fallback_amended [("m1", 1 / 100)] c3wItem rfl).1 rfl).1

theorem dedupPass_snd_mono (xs : List InvoiceGmail.Invoice) :
    ∀ (seen : List (Option String)) (k : Option String), k ∈ seen →
      k ∈ (InvoiceGmail.dedupPass seen xs).2 := by
  induction xs with
  | nil => intro seen k h; simpa [InvoiceGmail.dedupPass] using h
  | cons inv rest ih =>
    intro seen k h
    by_cases hm : inv.invoice_id ∈ seen
    · simpa [InvoiceGmail.dedupPass, List.contains, hm] using ih seen k h
    · simpa [InvoiceGmail.dedupPass, List.contains, hm] using
        ih (inv.invoice_id :: seen) k (List.mem_cons_of_mem _ h)

theorem dedupPass_snd_of_mem (xs : List InvoiceGmail.Invoice) :
    ∀ (seen : List (Option String)) (k : Option String),
      (∃ i ∈ xs, i.invoice_id = k) → k ∈ (InvoiceGmail.dedupPass seen xs).2 := by
  induction xs with
  | nil => intro seen k h; simp at h
  | cons inv rest ih =>
    intro seen k h
    obtain ⟨i, hi, hik⟩ := h
    rcases List.mem_cons.mp hi with hi | hi
    · subst hi
      by_cases hm : i.invoice_id ∈ seen
      · have : k ∈ seen := hik ▸ hm
        simpa [InvoiceGmail.dedupPass, List.contains, hm] using
          dedupPass_snd_mono rest seen k this
      · have : k ∈ i.invoice_id :: seen := by simp [hik]
        simpa [InvoiceGmail.dedupPass, List.contains, hm] using
          dedupPass_snd_mono rest (i.invoice_id :: seen) k this
    · by_cases hm : inv.invoice_id ∈ seen
      · simpa [InvoiceGmail.dedupPass, List.contains, hm] using ih seen k ⟨i, hi, hik⟩
      · simpa [InvoiceGmail.dedupPass, List.contains, hm] using
          ih (inv.invoice_id :: seen) k ⟨i, hi, hik⟩

theorem dedupPass_filter_of_mem (xs : List InvoiceGmail.Invoice) :
    ∀ (seen : List (Option String)) (k : Option String), k ∈ seen →
      (InvoiceGmail.dedupPass seen xs).1.filter (fun i => i.invoice_id == k) = [] := by
  induction xs with
  | nil => intro seen k h; simp [InvoiceGmail.dedupPass]
  | cons inv rest ih =>
    intro seen k h
    by_cases hm : inv.invoice_id ∈ seen
    · simpa [InvoiceGmail.dedupPass, List.contains, hm] using ih seen k h
    · have hne : (inv.invoice_id == k) = false := by
        simp only [beq_eq_false_iff_ne]
        rintro rfl
        exact hm h
      simpa [InvoiceGmail.dedupPass, List.contains, hm, hne] using
        ih (inv.invoice_id :: seen) k (List.mem_cons_of_mem _ h)

theorem dedupPass_filter_of_not_mem (xs : List InvoiceGmail.Invoice) :
    ∀ (seen : List (Option String)) (k : Option String), k ∉ seen →
      (InvoiceGmail.dedupPass seen xs).1.filter (fun i => i.invoice_id == k) =
        (xs.filter (fun i => i.invoice_id == k)).take 1 := by
  induction xs with
  | nil => intro seen k h; simp [InvoiceGmail.dedupPass]
  | cons inv rest ih =>
    intro seen k h
    by_cases hm : inv.invoice_id ∈ seen
    · have hne : (inv.invoice_id == k) = false := by
        simp only [beq_eq_false_iff_ne]
        rintro rfl
        exact h hm
      simpa [InvoiceGmail.dedupPass, List.contains, hm, hne] using ih seen k h
    · cases hk : (inv.invoice_id == k) with
      | true =>
        have hkeq : inv.invoice_id = k := by simpa using hk
        have hrest : (InvoiceGmail.dedupPass (inv.invoice_id :: seen) rest).1.filter
            (fun i => i.invoice_id == k) = [] :=
          dedupPass_filter_of_mem rest (inv.invoice_id :: seen) k (by simp [hkeq])
        simp [InvoiceGmail.dedupPass, List.contains, hm, hk, hrest]
      | false =>
        have hknot : k ∉ inv.invoice_id :: seen := by
          intro hc
          rcases List.mem_cons.mp hc with hc | hc
          · rw [hc] at hk
            simp at hk
          · exact h hc
        simpa [InvoiceGmail.dedupPass, List.contains, hm, hk] using
          ih (inv.invoice_id :: seen) k hknot

/-- C9: when the first keyword pass returns exactly one validated invoice
with a given invoice_id and the second pass also returns one with that id,
the merged result of fetch_invoices contains exactly one record with that
id, namely the one from the earlier pass. -/
theorem c9_invoice_dedup_first_wins (p1 p2 : List InvoiceGmail.Invoice)
    (k : Option String) (a : InvoiceGmail.Invoice)
    (h1 : p1.filter (fun i => i.invoice_id == k) = [a])
    (h2 : ∃ b ∈ p2, b.invoice_id = k) :
    (InvoiceGmail.fetch_invoices_merge [.ok p1, .ok p2]).filter
      (fun i => i.invoice_id == k) = [a] := by
  have hin : ∃ i ∈ p1, i.invoice_id = k := by
    have ha : a ∈ p1.filter (fun i => i.invoice_id == k) := by
      rw [h1]; exact List.mem_singleton.mpr rfl
    obtain ⟨hmem, hpa⟩ := List.mem_filter.mp ha
    exact ⟨a, hmem, by simpa using hpa⟩
  have e : InvoiceGmail.fetch_invoices_merge [.ok p1, .ok p2] =
      (InvoiceGmail.dedupPass [] p1).1 ++
        (InvoiceGmail.dedupPass (InvoiceGmail.dedupPass [] p1).2 p2).1 := by
    simp [InvoiceGmail.fetch_invoices_merge, InvoiceGmail.mergeGo]
  have hfirst := dedupPass_filter_of_not_mem p1 [] k (by simp)
  have hmem2 : k ∈ (InvoiceGmail.dedupPass [] p1).2 := dedupPass_snd_of_mem p1 [] k hin
  have hsecond := dedupPass_filter_of_mem p2 (InvoiceGmail.dedupPass [] p1).2 k hmem2
  rw [e, List.filter_append, hfirst, hsecond, h1]
  simp

/-- Two one-invoice passes sharing the id "INV-1". -/
def c9inv1 : InvoiceGmail.Invoice :=
  ⟨some "INV-1", "2024-01-15", 30, "first", "Jan", "Replit", "subj1", "Paid"⟩

/-- The later duplicate with different payload. -/
def c9inv2 : InvoiceGmail.Invoice :=
  ⟨some "INV-1", "2024-01-16", 99, "second", "Jan", "Replit", "subj2", "Paid"⟩

/-- C9 witness: the merged result keeps only the first pass's record. -/
theorem c9_witness :
    (InvoiceGmail.fetch_invoices_merge [.ok [c9inv1], .ok [c9inv2]]).filter
      (fun i => i.invoice_id == some "INV-1") = [c9inv1] :=
  c9_invoice_dedup_first_wins [c9inv1] [c9inv2] (some "INV-1") c9inv1
    (by simp [c9inv1]) ⟨c9inv2, by simp, by simp [c9inv2]⟩

theorem mem_addToGroup {m : List (String × List UsageTracker.NotionRecord)} {k0 : String}
    {v : UsageTracker.NotionRecord} {k : String} {rs : List UsageTracker.NotionRecord}
    (h : (k, rs) ∈ UsageTracker.addToGroup m k0 v) {r : UsageTracker.NotionRecord}
    (hr : r ∈ rs) :
    ((k, r) = (k0, v)) ∨ ∃ rs1, (k, rs1) ∈ m ∧ r ∈ rs1 := by
  induction m generalizing k rs with
  | nil =>
    simp only [UsageTracker.addToGroup, List.mem_singleton, Prod.mk.injEq] at h
    obtain ⟨hk, hrs⟩ := h
    subst hk
    subst hrs
    left
    simpa using hr
  | cons hd rest ih =>
    obtain ⟨k1, vs⟩ := hd
    cases he : (k1 == k0) with
    | true =>
      have he2 : k1 = k0 := by simpa using he
      simp only [UsageTracker.addToGroup, he, if_true, List.mem_cons, Prod.mk.injEq] at h
      rcases h with ⟨hk, hrs⟩ | h
      · subst hk
        subst hrs
        rcases List.mem_append.mp hr with hv | hv
        · right
          exact ⟨vs, List.mem_cons_self _ _, hv⟩
        · left
          have : r = v := by simpa using hv
          simp [this, he2]
      · right
        exact ⟨rs, List.mem_cons_of_mem _ h, hr⟩
    | false =>
      simp only [UsageTracker.addToGroup, he, Bool.false_eq_true, if_false, List.mem_cons,
        Prod.mk.injEq] at h
      rcases h with ⟨hk, hrs⟩ | h
      · subst hk
        subst hrs
        right
        exact ⟨rs, List.mem_cons_self _ _, hr⟩
      · rcases ih h hr with h1 | ⟨rs1, hm1, hr1⟩
        · left; exact h1
        · right; exact ⟨rs1, List.mem_cons_of_mem _ hm1, hr1⟩

theorem mem_groupFold (pairs : List (String × UsageTracker.NotionRecord)) :
    ∀ (m : List (String × List UsageTracker.NotionRecord)) (k : String)
      (rs : List UsageTracker.NotionRecord) (r : UsageTracker.NotionRecord),
      (k, rs) ∈ pairs.foldl (fun acc kv => UsageTracker.addToGroup acc kv.1 kv.2) m →
      r ∈ rs → (k, r) ∈ pairs ∨ ∃ rs0, (k, rs0) ∈ m ∧ r ∈ rs0 := by
  induction pairs with
  | nil =>
    intro m k rs r h hr
    right
    exact ⟨rs, by simpa using h, hr⟩
  | cons kv rest ih =>
    intro m k rs r h hr
    have hstep := ih (UsageTracker.addToGroup m kv.1 kv.2) k rs r (by simpa using h) hr
    rcases hstep with h1 | ⟨rs0, hm, hr0⟩
    · left
      exact List.mem_cons_of_mem _ h1
    · rcases mem_addToGroup hm hr0 with heq | ⟨rs1, hm1, hr1⟩
      · left
        rw [heq]
        exact List.mem_cons_self _ _
      · right
        exact ⟨rs1, hm1, hr1⟩

theorem bucketTimeStr_false (b : String) : UsageTracker.bucketTimeStr false b = none := by
  simp [UsageTracker.bucketTimeStr]

theorem bucketRecords_mem_time {inc : Bool} {be : Dictish BucketEntry} {k : String}
    {r : UsageTracker.NotionRecord} (h : (k, r) ∈ UsageTracker.bucketRecords inc be) :
    ∃ b, UsageTracker.bucketStrOf be = some b ∧
      r.time = (if truthyStr (UsageTracker.bucketTimeStr inc b) then
        UsageTracker.bucketTimeStr inc b else none) := by
  unfold UsageTracker.bucketRecords at h
  cases hb : UsageTracker.bucketStrOf be with
  | none => rw [hb] at h; simp at h
  | some b =>
    rw [hb] at h
    refine ⟨b, rfl, ?_⟩
    cases be with
    | notDict => simp at h
    | isDict bent =>
      obtain ⟨bk, res⟩ := bent
      cases res with
      | absent => simp at h
      | notList => simp at h
      | list rsl =>
        obtain ⟨it, hit, hfm⟩ := List.mem_filterMap.mp h
        cases it with
        | notDict => simp at hfm
        | isDict r0 =>
          cases ht : truthyStr r0.endpoint_id with
          | false => simp [ht] at hfm
          | true =>
            simp only [ht, if_true, Option.some.injEq, Prod.mk.injEq] at hfm
            obtain ⟨hk2, hr2⟩ := hfm
            rw [← hr2]
            rfl

/-- C7 amended: a record produced by format_for_notion carries no time
field whenever the effective granularity is not minute or hour; at minute
or hour granularity, a record's time field is exactly the offset-stripped
time-of-day part of its source bucket when the bucket contains a "T" and
the stripped part is nonempty, and is absent otherwise (in particular a
minute- or hour-granularity record whose bucket has no "T" time component
carries no time field). -/
theorem c7_time_presence_amended (u : RawUsage) (k : String)
    (rs : List UsageTracker.NotionRecord) (r : UsageTracker.NotionRecord)
    (hk : (k, rs) ∈ UsageTracker.format_for_notion u) (hr : r ∈ rs) :
    (((UsageTracker.effectiveTimeframe u.meta == "minute" ||
       UsageTracker.effectiveTimeframe u.meta == "hour")) = false → r.time = none) ∧
    ∃ be ∈ (parse_usage_data u).time_series, ∃ b, UsageTracker.bucketStrOf be = some b ∧
      r.time = (if truthyStr (UsageTracker.bucketTimeStr
          (UsageTracker.effectiveTimeframe u.meta == "minute" ||
            UsageTracker.effectiveTimeframe u.meta == "hour") b) then
        UsageTracker.bucketTimeStr
          (UsageTracker.effectiveTimeframe u.meta == "minute" ||
            UsageTracker.effectiveTimeframe u.meta == "hour") b
        else none) := by
  have hk2 : (k, rs) ∈ ((parse_usage_data u).time_series.flatMap
      (UsageTracker.bucketRecords
        (UsageTracker.effectiveTimeframe u.meta == "minute" ||
          UsageTracker.effectiveTimeframe u.meta == "hour"))).foldl
      (fun acc kv => UsageTracker.addToGroup acc kv.1 kv.2) [] := hk
  rcases mem_groupFold _ [] k rs r hk2 hr with hpair | ⟨rs0, h0, _⟩
  · obtain ⟨be, hbe, hkr⟩ := List.mem_flatMap.mp hpair
    obtain ⟨b, hb, htime⟩ := bucketRecords_mem_time hkr
    refine ⟨?_, ⟨be, hbe, b, hb, htime⟩⟩
    intro hfalse
    rw [htime, hfalse, bucketTimeStr_false]
    simp [truthyStr]
  · simp at h0

/-- Minute-granularity response whose single bucket has no "T" time
component. -/
def c7data : RawUsage :=
  ⟨⟨some "minute", .absent, .absent⟩,
    .list [.isDict ⟨some (.strv "2024-03-05"),
      .list [.isDict { RawItem.empty with endpoint_id := some "m" }]⟩], .nonList⟩

/-- The record c7data maps to: no time field despite minute granularity. -/
def c7rec : UsageTracker.NotionRecord :=
  ⟨"2024-03-05", "m", 0, 0, 0, 0, "Unknown", none⟩

/-- C7 counterexample: a minute-granularity record produced from a bucket
string without a "T" carries no time field, refuting "minute or hour
granularity records always carry a time field". -/
theorem c7_counterexample :
    UsageTracker.effectiveTimeframe c7data.meta = "minute" ∧
    UsageTracker.format_for_notion c7data = [("Unknown", [c7rec])] ∧
    c7rec.time = none := by
  refine ⟨rfl, ?_, rfl⟩
  have hts : UsageTracker.bucketTimeStr true "2024-03-05" = none := by decide
  have hd : UsageTracker.bucketDate "2024-03-05" = "2024-03-05" := by decide
  simp [UsageTracker.format_for_notion, c7data, parse_usage_data, PyListField.toList,
    UsageTracker.effectiveTimeframe, UsageTracker.bucketRecords, UsageTracker.bucketStrOf,
    UsageTracker.resultRecord, UsageTracker.aliasOfItem, UsageTracker.addToGroup,
    truthyStr, RawItem.empty, c7rec, hts, hd]

/-- Minute-granularity response whose single bucket carries a Z-suffixed
time-of-day. -/
def c7wdata : RawUsage :=
  ⟨⟨some "minute", .absent, .absent⟩,
    .list [.isDict ⟨some (.strv "2024-03-05T14:30:00Z"),
      .list [.isDict { RawItem.empty with endpoint_id := some "m" }]⟩], .nonList⟩

/-- The record c7wdata maps to: time present, offset stripped. -/
def c7wrec : UsageTracker.NotionRecord :=
  ⟨"2024-03-05", "m", 0, 0, 0, 0, "Unknown", some "14:30:00"⟩

/-- C7 witness: the amended statement applied to a concrete minute-
granularity record whose bucket does carry a time part. -/
theorem c7_witness :
    ∃ be ∈ (parse_usage_data c7wdata).time_series, ∃ b,
      UsageTracker.bucketStrOf be = some b ∧
      c7wrec.time = (if truthyStr (UsageTracker.bucketTimeStr
          (UsageTracker.effectiveTimeframe c7wdata.meta == "minute" ||
            UsageTracker.effectiveTimeframe c7wdata.meta == "hour") b) then
        UsageTracker.bucketTimeStr
          (UsageTracker.effectiveTimeframe c7wdata.meta == "minute" ||
            UsageTracker.effectiveTimeframe c7wdata.meta == "hour") b
        else none) :=
  (c7_time_presence_amended c7wdata "Unknown" [c7wrec] c7wrec
    (by
      have hts : UsageTracker.bucketTimeStr true "2024-03-05T14:30:00Z" =
          some "14:30:00" := by decide
      have hd : UsageTracker.bucketDate "2024-03-05T14:30:00Z" = "2024-03-05" := by decide
      simp [UsageTracker.format_for_notion, c7wdata, parse_usage_data, PyListField.toList,
        UsageTracker.effectiveTimeframe, UsageTracker.bucketRecords,
        UsageTracker.bucketStrOf, UsageTracker.resultRecord, UsageTracker.aliasOfItem,
        UsageTracker.addToGroup, truthyStr, RawItem.empty, c7wrec, hts, hd])
    (List.mem_singleton.mpr rfl)).2

theorem scanPages_needsTime_truthy (model : String) (time auth_method : Option String)
    (cost : Option ℚ) (ps : List NotionIntegration.Page)
    (h : (NotionIntegration.scanPages model time auth_method cost ps).2 = true) :
    truthyStr time = true := by
  induction ps with
  | nil => simp [NotionIntegration.scanPages] at h
  | cons p rest ih =>
    by_cases hh : NotionIntegration.scanHit model time auth_method cost p = true
    · rw [NotionIntegration.scanPages, if_pos hh] at h
      exact (Bool.and_eq_true _ _ |>.mp h).1
    · rw [NotionIntegration.scanPages, if_neg hh] at h
      exact ih h

theorem find_needsTime_truthy {qok : Bool} {store : List NotionIntegration.Page}
    {date model : String} {time auth_method : Option String} {cost : Option ℚ}
    {pid : Nat}
    (h : NotionIntegration.find_existing_page qok store date model time auth_method cost =
      .pair (some pid) true) :
    truthyStr time = true := by
  cases hq : qok with
  | false =>
    rw [NotionIntegration.find_existing_page, if_neg (by simp [hq])] at h
    exact absurd h (by simp)
  | true =>
    rw [NotionIntegration.find_existing_page, if_pos (by simp [hq])] at h
    have h2 : (NotionIntegration.scanPages model time auth_method cost
        (store.filter (fun p => p.date == date))).2 = true := by
      cases hsc : NotionIntegration.scanPages model time auth_method cost
          (store.filter (fun p => p.date == date)) with
      | mk a b =>
        rw [hsc] at h
        cases h
        rfl
    exact scanPages_needsTime_truthy _ _ _ _ _ h2

/-- C8: whenever save_usage_data finds a matching page with
needs_time_update (the stored Time is absent while the record supplies
one), it performs a time-only update regardless of the update_existing
flag: the run counts exactly one updated and no created, and the
resulting store differs from the old one only in the Time property of the
matched page — every page keeps its Date, Model, Key Name, Requests,
Quantity, Cost and Unit Price. -/
theorem c8_time_backfill_frame (update_existing : Bool)
    (store : List NotionIntegration.Page) (r : NotionIntegration.InRecord) (pid : Nat)
    (hd : truthyStr r.date = true) (hm : truthyStr r.model = true)
    (hfind : NotionIntegration.find_existing_page true store (r.date.getD "")
      (r.model.getD "") r.time r.auth_method (some r.cost) = .pair (some pid) true) :
    NotionIntegration.save_usage_data update_existing [] [r] store =
      .ok (⟨0, 1, 0⟩,
        store.map (fun p => if p.id == pid then { p with time := r.time } else p)) ∧
    ∀ p ∈ store.map (fun p => if p.id == pid then { p with time := r.time } else p),
      ∃ q ∈ store, p.id = q.id ∧ p.date = q.date ∧ p.model = q.model ∧
        p.keyName = q.keyName ∧ p.requests = q.requests ∧ p.quantity = q.quantity ∧
        p.cost = q.cost ∧ p.unit_price = q.unit_price := by
  have htime : truthyStr r.time = true := find_needsTime_truthy hfind
  constructor
  · simp [NotionIntegration.save_usage_data, NotionIntegration.saveGo, hd, hm, hfind,
      htime, NotionIntegration.applyUpdate, NotionIntegration.RecOracle.allOk]
  · intro p hp
    obtain ⟨q, hq, hpq⟩ := List.mem_map.mp hp
    by_cases hid : (q.id == pid) = true
    · refine ⟨q, hq, ?_⟩
      rw [← hpq]
      simp [hid]
    · refine ⟨q, hq, ?_⟩
      rw [← hpq]
      simp [hid]

/-- One stored page lacking a Time value. -/
def c8store : List NotionIntegration.Page :=
  [⟨0, "2024-01-01", "m", none, 1, 2, 3, 4, none⟩]

/-- A matching record (same date, model and cost) that supplies a time. -/
def c8rec : NotionIntegration.InRecord :=
  ⟨some "2024-01-01", some "m", some "01:00:00", none, 9, 9, 3, 9⟩

theorem c8_find_backfill :
    NotionIntegration.find_existing_page true c8store (c8rec.date.getD "")
      (c8rec.model.getD "") c8rec.time c8rec.auth_method (some c8rec.cost) =
      .pair (some 0) true := by
  norm_num [NotionIntegration.find_existing_page, NotionIntegration.scanPages,
    NotionIntegration.scanHit, NotionIntegration.hitNeedsTime, truthyStr, c8store, c8rec]
  decide

/-- C8 witness: one backfill run on a concrete store writes only the Time
property and counts exactly one updated. -/
theorem c8_witness :
    NotionIntegration.save_usage_data false [] [c8rec] c8store =
      .ok (⟨0, 1, 0⟩, [⟨0, "2024-01-01", "m", none, 1, 2, 3, 4, some "01:00:00"⟩]) := by
  have h := (c8_time_backfill_frame false c8store c8rec 0 rfl rfl c8_find_backfill).1
  rw [h]
  simp [c8store, c8rec]

theorem scanPages_no_hit {model : String} {time auth_method : Option String}
    {cost : Option ℚ} {ps : List NotionIntegration.Page}
    (h : ∀ p ∈ ps, NotionIntegration.scanHit model time auth_method cost p = false) :
    NotionIntegration.scanPages model time auth_method cost ps = (none, false) := by
  induction ps with
  | nil => rfl
  | cons p rest ih =>
    rw [NotionIntegration.scanPages, if_neg (by simp [h p (List.mem_cons_self _ _)])]
    exact ih (fun q hq => h q (List.mem_cons_of_mem _ hq))

theorem scanPages_first_hit {model : String} {time auth_method : Option String}
    {cost : Option ℚ} {q : NotionIntegration.Page} (ps1 : List NotionIntegration.Page)
    {ps2 : List NotionIntegration.Page}
    (h1 : ∀ p ∈ ps1, NotionIntegration.scanHit model time auth_method cost p = false)
    (hq : NotionIntegration.scanHit model time auth_method cost q = true) :
    NotionIntegration.scanPages model time auth_method cost (ps1 ++ q :: ps2) =
      (some q.id, NotionIntegration.hitNeedsTime time q) := by
  induction ps1 with
  | nil =>
    rw [List.nil_append, NotionIntegration.scanPages, if_pos hq]
  | cons p rest ih =>
    rw [List.cons_append, NotionIntegration.scanPages,
      if_neg (by simp [h1 p (List.mem_cons_self _ _)])]
    exact ih (fun p2 hp2 => h1 p2 (List.mem_cons_of_mem _ hp2))

theorem find_no_hit {store : List NotionIntegration.Page} {r : NotionIntegration.InRecord}
    (h : ∀ p ∈ store, NotionIntegration.pageHit r p = false) :
    NotionIntegration.find_existing_page true store (r.date.getD "") (r.model.getD "")
      r.time r.auth_method (some r.cost) = .pair none false := by
  rw [NotionIntegration.find_existing_page, if_pos rfl]
  have hs : NotionIntegration.scanPages (r.model.getD "") r.time r.auth_method
      (some r.cost) (store.filter (fun p => p.date == r.date.getD "")) = (none, false) := by
    apply scanPages_no_hit
    intro p hp
    obtain ⟨hps, hpd⟩ := List.mem_filter.mp hp
    have hph := h p hps
    unfold NotionIntegration.pageHit at hph
    rw [hpd, Bool.true_and] at hph
    exact hph
  rw [hs]

theorem find_first_hit {pre post : List NotionIntegration.Page}
    {q : NotionIntegration.Page} {r : NotionIntegration.InRecord}
    (hpre : ∀ p ∈ pre, NotionIntegration.pageHit r p = false)
    (hq : NotionIntegration.pageHit r q = true) :
    NotionIntegration.find_existing_page true (pre ++ q :: post) (r.date.getD "")
      (r.model.getD "") r.time r.auth_method (some r.cost) =
      .pair (some q.id) (NotionIntegration.hitNeedsTime r.time q) := by
  unfold NotionIntegration.pageHit at hq
  obtain ⟨hqd, hqs⟩ := Bool.and_eq_true _ _ |>.mp hq
  rw [NotionIntegration.find_existing_page, if_pos rfl]
  rw [List.filter_append, List.filter_cons, if_pos (by simpa using hqd)]
  have hs := @scanPages_first_hit (r.model.getD "") r.time r.auth_method (some r.cost) q
    (pre.filter (fun p => p.date == r.date.getD ""))
    (post.filter (fun p => p.date == r.date.getD ""))
    (fun p hp => by
      obtain ⟨hps, hpd⟩ := List.mem_filter.mp hp
      have hph := hpre p hps
      unfold NotionIntegration.pageHit at hph
      rw [hpd, Bool.true_and] at hph
      exact hph)
    hqs
  rw [hs]

theorem truthyStr_eq_some {o : Option String} (h : truthyStr o = true) :
    o = some (o.getD "") := by
  cases o with
  | none => simp [truthyStr] at h
  | some s => rfl

theorem authOk_self (am : Option String) :
    (!(truthyStr am) || ((if truthyStr am then am else none) == some (am.getD ""))) =
      true := by
  cases am with
  | none => rfl
  | some a =>
    by_cases ha : a = ""
    · subst ha; rfl
    · have ht : truthyStr (some a) = true := by simp [truthyStr, ha]
      rw [ht]
      simp

theorem timeOk_self (t : Option String) :
    (!(truthyStr t) || ((if truthyStr t then t else none) == some (t.getD "")) ||
      !(truthyStr (if truthyStr t then t else none))) = true := by
  cases t with
  | none => rfl
  | some a =>
    by_cases ha : a = ""
    · subst ha; rfl
    · have ht : truthyStr (some a) = true := by simp [truthyStr, ha]
      rw [ht]
      simp

theorem costOk_self (c : ℚ) : (decide (abs (c - c) ≤ 1 / 10000)) = true := by
  rw [sub_self, abs_zero]
  exact decide_eq_true (by norm_num)

theorem pageHit_self (r : NotionIntegration.InRecord) (i : Nat) :
    NotionIntegration.pageHit r (NotionIntegration.recPageAt i r) = true := by
  unfold NotionIntegration.pageHit NotionIntegration.scanHit NotionIntegration.recPageAt
    NotionIntegration.mkPage
  simp [authOk_self, timeOk_self, costOk_self]

theorem hitNeedsTime_self (r : NotionIntegration.InRecord) (i : Nat) :
    NotionIntegration.hitNeedsTime r.time (NotionIntegration.recPageAt i r) = false := by
  unfold NotionIntegration.hitNeedsTime NotionIntegration.recPageAt NotionIntegration.mkPage
  cases htt : truthyStr r.time with
  | false => simp [htt]
  | true =>
    obtain ⟨t, ht⟩ : ∃ t, r.time = some t := by
      cases hto : r.time with
      | none => rw [hto] at htt; simp [truthyStr] at htt
      | some a => exact ⟨a, rfl⟩
    simp [ht]

theorem pageHit_recPageAt_id (a b : NotionIntegration.InRecord) (i : Nat) :
    NotionIntegration.pageHit a (NotionIntegration.recPageAt i b) =
      NotionIntegration.recHit a b := rfl

theorem saveGo_all_create (rs : List NotionIntegration.InRecord) :
    ∀ (store : List NotionIntegration.Page) (stats : NotionIntegration.SaveStats),
      (∀ r ∈ rs, truthyStr r.date = true ∧ truthyStr r.model = true) →
      NotionIntegration.pairwiseNoHit rs = true →
      (∀ r ∈ rs, ∀ p ∈ store, NotionIntegration.pageHit r p = false) →
      NotionIntegration.saveGo false [] rs store stats =
        .ok (⟨stats.created + rs.length, stats.updated, stats.skipped⟩,
          store ++ NotionIntegration.recPages store.length rs) := by
  induction rs with
  | nil =>
    intro store stats _ _ _
    simp [NotionIntegration.saveGo, NotionIntegration.recPages]
  | cons r rest ih =>
    intro store stats hall hpair hstore
    obtain ⟨hd, hm⟩ := hall r (List.mem_cons_self _ _)
    have hfind := @find_no_hit store r
      (fun p hp => hstore r (List.mem_cons_self _ _) p hp)
    rw [NotionIntegration.pairwiseNoHit] at hpair
    obtain ⟨hhd, hptail⟩ := Bool.and_eq_true _ _ |>.mp hpair
    have hstore' : ∀ r' ∈ rest,
        ∀ p ∈ store ++ [NotionIntegration.recPageAt store.length r],
        NotionIntegration.pageHit r' p = false := by
      intro r' hr' p hp
      rcases List.mem_append.mp hp with hp | hp
      · exact hstore r' (List.mem_cons_of_mem _ hr') p hp
      · have hpeq : p = NotionIntegration.recPageAt store.length r := by simpa using hp
        subst hpeq
        rw [pageHit_recPageAt_id]
        have := List.all_eq_true.mp hhd r' hr'
        simpa using this
    have hstep := ih (store ++ [NotionIntegration.recPageAt store.length r])
      ⟨stats.created + 1, stats.updated, stats.skipped⟩
      (fun r' hr' => hall r' (List.mem_cons_of_mem _ hr')) hptail hstore'
    simp only [NotionIntegration.saveGo, List.headD, List.tail, hd, hm, Bool.not_true,
      Bool.or_self, Bool.false_or, Bool.or_false, if_false, hfind,
      NotionIntegration.RecOracle.allOk] at hstep ⊢
    rw [if_neg (by simp), if_pos trivial]
    have hrp : NotionIntegration.mkPage store.length (r.date.getD "") (r.model.getD "")
        r.requests r.quantity r.cost r.unit_price r.auth_method r.time =
        NotionIntegration.recPageAt store.length r := rfl
    rw [hrp, hstep]
    simp [NotionIntegration.recPages, List.length_append, List.append_assoc,
      Nat.add_comm, Nat.add_assoc, Nat.add_left_comm]

theorem saveGo_all_skip (rs : List NotionIntegration.InRecord) :
    ∀ (pre : List NotionIntegration.Page) (i : Nat) (stats : NotionIntegration.SaveStats),
      (∀ r ∈ rs, truthyStr r.date = true ∧ truthyStr r.model = true) →
      NotionIntegration.pairwiseNoHit rs = true →
      (∀ r ∈ rs, ∀ p ∈ pre, NotionIntegration.pageHit r p = false) →
      NotionIntegration.saveGo false [] rs (pre ++ NotionIntegration.recPages i rs) stats =
        .ok (⟨stats.created, stats.updated, stats.skipped + rs.length⟩,
          pre ++ NotionIntegration.recPages i rs) := by
  induction rs with
  | nil =>
    intro pre i stats _ _ _
    simp [NotionIntegration.saveGo, NotionIntegration.recPages]
  | cons r rest ih =>
    intro pre i stats hall hpair hpre
    obtain ⟨hd, hm⟩ := hall r (List.mem_cons_self _ _)
    rw [NotionIntegration.pairwiseNoHit] at hpair
    obtain ⟨hhd, hptail⟩ := Bool.and_eq_true _ _ |>.mp hpair
    have hfind := @find_first_hit pre (NotionIntegration.recPages (i + 1) rest)
      (NotionIntegration.recPageAt i r) r
      (fun p hp => hpre r (List.mem_cons_self _ _) p hp) (pageHit_self r i)
    rw [hitNeedsTime_self] at hfind
    have hpre' : ∀ r' ∈ rest, ∀ p ∈ pre ++ [NotionIntegration.recPageAt i r],
        NotionIntegration.pageHit r' p = false := by
      intro r' hr' p hp
      rcases List.mem_append.mp hp with hp | hp
      · exact hpre r' (List.mem_cons_of_mem _ hr') p hp
      · have hpeq : p = NotionIntegration.recPageAt i r := by simpa using hp
        subst hpeq
        rw [pageHit_recPageAt_id]
        have := List.all_eq_true.mp hhd r' hr'
        simpa using this
    have hstep := ih (pre ++ [NotionIntegration.recPageAt i r]) (i + 1)
      ⟨stats.created, stats.updated, stats.skipped + 1⟩
      (fun r' hr' => hall r' (List.mem_cons_of_mem _ hr')) hptail hpre'
    rw [List.append_assoc, List.singleton_append] at hstep
    simp only [NotionIntegration.recPages]
    simp only [NotionIntegration.saveGo, List.headD, List.tail, hd, hm, Bool.not_true,
      Bool.or_self, if_false, hfind, NotionIntegration.RecOracle.allOk]
    rw [if_neg (by simp)]
    simp only [Bool.false_and, Bool.false_eq_true, if_false]
    rw [hstep]
    simp [Nat.add_comm, Nat.add_assoc, Nat.add_left_comm]

/-- C1 amended: for every list of records, each with a truthy date and
model, such that no record's duplicate scan would stop at another record's
stored page (same date and model, matching Key Name when the probing
record supplies one, cost within 0.0001, and a time comparison that does
not fall into the continue branch), running save_usage_data twice against
an initially empty store with update_existing off and all remote calls
succeeding yields created = N, updated = 0, skipped = 0 the first time and
created = 0, updated = 0, skipped = N the second time. -/
theorem c1_upsert_idempotent_amended (rs : List NotionIntegration.InRecord)
    (hall : rs.all (fun r => truthyStr r.date && truthyStr r.model) = true)
    (hpair : NotionIntegration.pairwiseNoHit rs = true) :
    ∃ store1, NotionIntegration.save_usage_data false [] rs [] =
        .ok (⟨rs.length, 0, 0⟩, store1) ∧
      NotionIntegration.save_usage_data false [] rs store1 =
        .ok (⟨0, 0, rs.length⟩, store1) := by
  have hall' : ∀ r ∈ rs, truthyStr r.date = true ∧ truthyStr r.model = true := by
    intro r hr
    have := List.all_eq_true.mp hall r hr
    exact ⟨(Bool.and_eq_true _ _ |>.mp this).1, (Bool.and_eq_true _ _ |>.mp this).2⟩
  refine ⟨NotionIntegration.recPages 0 rs, ?_, ?_⟩
  · have h1 := saveGo_all_create rs [] ⟨0, 0, 0⟩ hall' hpair
      (by intro r _ p hp; simp at hp)
    simpa [NotionIntegration.save_usage_data] using h1
  · have h2 := saveGo_all_skip rs [] 0 ⟨0, 0, 0⟩ hall' hpair
      (by intro r _ p hp; simp at hp)
    simpa [NotionIntegration.save_usage_data] using h2

/-- Record without a time value. -/
def c1r1 : NotionIntegration.InRecord :=
  ⟨some "2024-01-01", some "m", none, none, 0, 0, 0, 0⟩

/-- Same date, model, auth_method and cost, but with a time value — a
distinct record under the composite key (date, model, auth_method, cost,
time). -/
def c1r2 : NotionIntegration.InRecord :=
  ⟨some "2024-01-01", some "m", some "01:00:00", none, 0, 0, 0, 0⟩

/-- C1 counterexample: the two records are pairwise distinct under the
composite key, yet the first run against an empty store returns
created = 1, updated = 1 (a time backfill), not created = 2: the claim
fails as stated. -/
theorem c1_counterexample :
    NotionIntegration.save_usage_data false [] [c1r1, c1r2] [] =
      .ok (⟨1, 1, 0⟩, [⟨0, "2024-01-01", "m", none, 0, 0, 0, 0, some "01:00:00"⟩]) ∧
    (⟨1, 1, 0⟩ : NotionIntegration.SaveStats) ≠ ⟨2, 0, 0⟩ := by
  constructor
  · norm_num [NotionIntegration.save_usage_data, NotionIntegration.saveGo,
      NotionIntegration.find_existing_page, NotionIntegration.scanPages,
      NotionIntegration.scanHit, NotionIntegration.hitNeedsTime, NotionIntegration.mkPage,
      NotionIntegration.applyUpdate, NotionIntegration.RecOracle.allOk, truthyStr,
      c1r1, c1r2]
    rfl
  · intro h
    cases h

/-- Two records distinct in model, hence never hitting each other. -/
def c1wA : NotionIntegration.InRecord :=
  ⟨some "2024-01-01", some "model-a", none, none, 0, 0, 0, 0⟩

/-- Second record of the witness batch. -/
def c1wB : NotionIntegration.InRecord :=
  ⟨some "2024-01-01", some "model-b", none, none, 0, 0, 0, 0⟩

/-- C1 witness: the amended idempotence at a concrete two-record batch. -/
theorem c1_witness :
    ∃ store1, NotionIntegration.save_usage_data false [] [c1wA, c1wB] [] =
        .ok (⟨2, 0, 0⟩, store1) ∧
      NotionIntegration.save_usage_data false [] [c1wA, c1wB] store1 =
        .ok (⟨0, 0, 2⟩, store1) :=
  c1_upsert_idempotent_amended [c1wA, c1wB] (by decide)
    (by
      norm_num [NotionIntegration.pairwiseNoHit, NotionIntegration.recHit,
        NotionIntegration.pageHit, NotionIntegration.scanHit, NotionIntegration.recPageAt,
        NotionIntegration.mkPage, truthyStr, c1wA, c1wB]
      decide)
